import Mathlib

/-!
# Verification of the blender-uv-layout panel layout program

Shallow embedding of `src/blender-uv-layout.py`.  The program computes a
2D layout of six rectangular box faces on a fixed canvas, derives a
uniform pixels-per-meter scale, places each face in a 3x2 grid
(centering in its cell, or butting an END face against a SIDE face),
derives an inset "safe" rectangle per face, and emits one metadata
record per face with pixel and normalized UV coordinates.

Modelling conventions:
* Python float arithmetic is modelled exactly over `ℚ`.
* Python `int(round(x))` (round half to even on nonnegative halves and
  to even on negative halves alike) is modelled by `pyround`.
* Python floor division `//` is modelled by `Int.fdiv`.
* Python's `x / 0.0` raises `ZeroDivisionError`; the scale computation
  is therefore modelled as an `Option`, `none` meaning the program
  aborts with an exception before drawing.
* A Python dict that omits a key is modelled by an `Option` field being
  `none`.
-/

namespace UVLayout

/-- Python 3 `round` to the nearest integer, ties going to the even
integer (banker's rounding), expressed over `ℚ`. -/
def pyround (q : ℚ) : ℤ :=
  if q - ⌊q⌋ < 1/2 then ⌊q⌋
  else if 1/2 < q - ⌊q⌋ then ⌊q⌋ + 1
  else if ⌊q⌋ % 2 = 0 then ⌊q⌋ else ⌊q⌋ + 1

/-- The configuration constants of the script (source lines 24-51):
real-world box dimensions in meters, canvas size / margins / gaps in
pixels, and guide styling parameters in millimeters. -/
structure Config where
  L : ℚ
  W : ℚ
  H : ℚ
  canvas_w : ℤ
  canvas_h : ℤ
  margin_px : ℤ
  col_gap_px : ℤ
  row_gap_px : ℤ
  safe_inset_mm : ℚ
  tick_len_mm : ℚ
  tick_thick_mm : ℚ
  cut_thick_mm : ℚ
  dash_len_mm : ℚ
  gap_len_mm : ℚ
deriving DecidableEq

/-- The configuration values of the source file: L=12.2, W=3.048, H=3.1,
canvas 2048x2048, margin 60, gaps 40, guide millimeters 50/30/6/8/25/15. -/
def defaultConfig : Config :=
  ⟨12.2, 3.048, 3.1, 2048, 2048, 60, 40, 40, 50, 30, 6, 8, 25, 15⟩

/-- A face tuple `(name, width_m, height_m)` (source lines 62-69). -/
structure Face where
  name : String
  width_m : ℚ
  height_m : ℚ
deriving DecidableEq

def sideA (cfg : Config) : Face := ⟨"SIDE A", cfg.L, cfg.H⟩
def endA (cfg : Config) : Face := ⟨"END A", cfg.W, cfg.H⟩
def top (cfg : Config) : Face := ⟨"TOP", cfg.L, cfg.W⟩
def bottom (cfg : Config) : Face := ⟨"BOTTOM", cfg.L, cfg.W⟩
def sideB (cfg : Config) : Face := ⟨"SIDE B", cfg.L, cfg.H⟩
def endB (cfg : Config) : Face := ⟨"END B", cfg.W, cfg.H⟩

/-- A pixel-space rectangle `(x0, y0, x1, y1)`. -/
structure Rect where
  x0 : ℤ
  y0 : ℤ
  x1 : ℤ
  y1 : ℤ
deriving DecidableEq, Inhabited

/-- Normalized UV coordinates of a rectangle. -/
structure UvRect where
  u0 : ℚ
  v0 : ℚ
  u1 : ℚ
  v1 : ℚ
deriving DecidableEq, Inhabited

/-- The value of `rect_to_uv` (source lines 120-128): the pixel rect
together with its normalization by the canvas dimensions. -/
structure RectUv where
  px : Rect
  uv : UvRect
deriving DecidableEq, Inhabited

/-- `rect_to_uv(rect, canvas_w, canvas_h)` (source lines 120-128). -/
def rect_to_uv (r : Rect) (canvas_w canvas_h : ℤ) : RectUv :=
  ⟨r, ⟨(r.x0 : ℚ) / canvas_w, (r.y0 : ℚ) / canvas_h,
       (r.x1 : ℚ) / canvas_w, (r.y1 : ℚ) / canvas_h⟩⟩

/-- One entry of `metadata["faces"]` (source lines 243-255).  The field
`butted_to_side_right_edge` is `none` when the emitted Python dict does
not contain that key (the left-column records) and `some b` when it
does. -/
structure FaceRecord where
  name : String
  meters_w : ℚ
  meters_h : ℚ
  cut_rect : RectUv
  safe_rect : RectUv
  butted_to_side_right_edge : Option Bool
deriving DecidableEq, Inhabited

/-- Column maxima `cols_m` (source lines 135-141): the accumulation loop
over rows 0,1,2 seeds each column maximum with 0.0; column 0 sees the
widths of SIDE A, TOP, SIDE B. -/
def col0M (cfg : Config) : ℚ :=
  max (max (max 0 (sideA cfg).width_m) (top cfg).width_m) (sideB cfg).width_m

/-- Column 1 maximum: widths of END A, BOTTOM, END B, seeded with 0. -/
def col1M (cfg : Config) : ℚ :=
  max (max (max 0 (endA cfg).width_m) (bottom cfg).width_m) (endB cfg).width_m

/-- Row 0 maximum height (SIDE A, END A), seeded with 0. -/
def row0M (cfg : Config) : ℚ :=
  max (max 0 (sideA cfg).height_m) (endA cfg).height_m

/-- Row 1 maximum height (TOP, BOTTOM), seeded with 0. -/
def row1M (cfg : Config) : ℚ :=
  max (max 0 (top cfg).height_m) (bottom cfg).height_m

/-- Row 2 maximum height (SIDE B, END B), seeded with 0. -/
def row2M (cfg : Config) : ℚ :=
  max (max 0 (sideB cfg).height_m) (endB cfg).height_m

/-- `sum_cols_m` (source line 143). -/
def sumColsM (cfg : Config) : ℚ := col0M cfg + col1M cfg

/-- `sum_rows_m` (source line 144). -/
def sumRowsM (cfg : Config) : ℚ := row0M cfg + row1M cfg + row2M cfg

/-- `avail_w_px = CANVAS_W - 2*MARGIN_PX - (2-1)*COL_GAP_PX` (line 147). -/
def availW (cfg : Config) : ℤ :=
  cfg.canvas_w - 2 * cfg.margin_px - (2 - 1) * cfg.col_gap_px

/-- `avail_h_px = CANVAS_H - 2*MARGIN_PX - (3-1)*ROW_GAP_PX` (line 148). -/
def availH (cfg : Config) : ℤ :=
  cfg.canvas_h - 2 * cfg.margin_px - (3 - 1) * cfg.row_gap_px

/-- `s = min(avail_w_px / sum_cols_m, avail_h_px / sum_rows_m)` (source
lines 151-153).  Python raises `ZeroDivisionError` when a float divisor
is zero, so the result is `none` exactly when an extent sum is zero;
the script performs no other validation of the configuration. -/
def computeScale (cfg : Config) : Option ℚ :=
  if sumColsM cfg = 0 ∨ sumRowsM cfg = 0 then none
  else some (min ((availW cfg : ℚ) / sumColsM cfg)
                 ((availH cfg : ℚ) / sumRowsM cfg))

/-- `mm_to_px(mm) = max(1, int(round((mm / 1000.0) * s)))` (lines 155-156). -/
def mm_to_px (s mm : ℚ) : ℤ := max 1 (pyround (mm / 1000 * s))

/-- `cols_px[0] = int(round(cols_m[0] * s))` (source line 159). -/
def col0Px (cfg : Config) (s : ℚ) : ℤ := pyround (col0M cfg * s)

def col1Px (cfg : Config) (s : ℚ) : ℤ := pyround (col1M cfg * s)

/-- `rows_px[r] = int(round(rows_m[r] * s))` (source line 160). -/
def row0Px (cfg : Config) (s : ℚ) : ℤ := pyround (row0M cfg * s)

def row1Px (cfg : Config) (s : ℚ) : ℤ := pyround (row1M cfg * s)

def row2Px (cfg : Config) (s : ℚ) : ℤ := pyround (row2M cfg * s)

/-- `grid_w_px = sum(cols_px) + COL_GAP_PX` (source line 163). -/
def gridWPx (cfg : Config) (s : ℚ) : ℤ :=
  col0Px cfg s + col1Px cfg s + cfg.col_gap_px

/-- `grid_h_px = sum(rows_px) + (len(rows_px) - 1) * ROW_GAP_PX` (line 164). -/
def gridHPx (cfg : Config) (s : ℚ) : ℤ :=
  row0Px cfg s + row1Px cfg s + row2Px cfg s + (3 - 1) * cfg.row_gap_px

/-- `grid_x0 = (CANVAS_W - grid_w_px) // 2` (source line 165); Python
`//` is floor division, i.e. `Int.fdiv`. -/
def gridX0 (cfg : Config) (s : ℚ) : ℤ :=
  Int.fdiv (cfg.canvas_w - gridWPx cfg s) 2

/-- `grid_y0 = (CANVAS_H - grid_h_px) // 2` (source line 166). -/
def gridY0 (cfg : Config) (s : ℚ) : ℤ :=
  Int.fdiv (cfg.canvas_h - gridHPx cfg s) 2

/-- `SAFE_INSET = mm_to_px(SAFE_INSET_MM)` (source line 172). -/
def SAFE_INSET (cfg : Config) (s : ℚ) : ℤ := mm_to_px s cfg.safe_inset_mm

def CUT_W (cfg : Config) (s : ℚ) : ℤ := mm_to_px s cfg.cut_thick_mm

def TICK_W (cfg : Config) (s : ℚ) : ℤ := mm_to_px s cfg.tick_thick_mm

def TICK_LEN (cfg : Config) (s : ℚ) : ℤ := mm_to_px s cfg.tick_len_mm

def DASH_LEN (cfg : Config) (s : ℚ) : ℤ := mm_to_px s cfg.dash_len_mm

def GAP_LEN (cfg : Config) (s : ℚ) : ℤ := mm_to_px s cfg.gap_len_mm

/-- `fw = int(round(wm * s))` -- a face's own pixel width (lines 198, 206). -/
def faceW (f : Face) (s : ℚ) : ℤ := pyround (f.width_m * s)

/-- `fh = int(round(hm * s))` -- a face's own pixel height (lines 198, 206). -/
def faceH (f : Face) (s : ℚ) : ℤ := pyround (f.height_m * s)

/-- `fx0_0 = x_left + (cell_w_left - fw0) // 2` (source line 199). -/
def fx00 (cfg : Config) (s : ℚ) (f0 : Face) : ℤ :=
  gridX0 cfg s + Int.fdiv (col0Px cfg s - faceW f0 s) 2

/-- `fy0_0 = y + (cell_h - fh0) // 2` (source line 200). -/
def fy00 (s : ℚ) (y cellH : ℤ) (f0 : Face) : ℤ :=
  y + Int.fdiv (cellH - faceH f0 s) 2

/-- The left-column face rect `(fx0_0, fy0_0, fx1_0, fy1_0)` with
`fx1_0 = fx0_0 + fw0` and `fy1_0 = fy0_0 + fh0` (lines 199-201). -/
def leftRect (cfg : Config) (s : ℚ) (y cellH : ℤ) (f0 : Face) : Rect :=
  ⟨fx00 cfg s f0, fy00 s y cellH f0,
   fx00 cfg s f0 + faceW f0 s, fy00 s y cellH f0 + faceH f0 s⟩

/-- `x_right = x_left + cell_w_left + COL_GAP_PX` (source line 204). -/
def xRight (cfg : Config) (s : ℚ) : ℤ :=
  gridX0 cfg s + col0Px cfg s + cfg.col_gap_px

/-- The butting condition `name1.startswith("END") and
name0.startswith("SIDE")` (source lines 207, 237, 254). -/
def buttCond (f0 f1 : Face) : Bool :=
  f1.name.startsWith "END" && f0.name.startsWith "SIDE"

/-- `fx0_1`: butted to the left face's right edge when the butting
condition holds, otherwise centered in the right cell (lines 207-212). -/
def fx01 (cfg : Config) (s : ℚ) (f0 f1 : Face) : ℤ :=
  if buttCond f0 f1 then fx00 cfg s f0 + faceW f0 s
  else xRight cfg s + Int.fdiv (col1Px cfg s - faceW f1 s) 2

/-- `fy0_1 = y + (cell_h - fh1) // 2` (source line 213), computed the
same way in both branches of the butting rule. -/
def fy01 (s : ℚ) (y cellH : ℤ) (f1 : Face) : ℤ :=
  y + Int.fdiv (cellH - faceH f1 s) 2

/-- The right-column face rect `(fx0_1, fy0_1, fx1_1, fy1_1)` (lines 207-214). -/
def rightRect (cfg : Config) (s : ℚ) (y cellH : ℤ) (f0 f1 : Face) : Rect :=
  ⟨fx01 cfg s f0 f1, fy01 s y cellH f1,
   fx01 cfg s f0 f1 + faceW f1 s, fy01 s y cellH f1 + faceH f1 s⟩

/-- Modelled from the spec, for comparison with `rightRect`: the
placement the right face would get "without the rule", i.e. always the
else-branch centering of source line 212. -/
def rightRectCentered (cfg : Config) (s : ℚ) (y cellH : ℤ) (f1 : Face) : Rect :=
  ⟨xRight cfg s + Int.fdiv (col1Px cfg s - faceW f1 s) 2, fy01 s y cellH f1,
   xRight cfg s + Int.fdiv (col1Px cfg s - faceW f1 s) 2 + faceW f1 s,
   fy01 s y cellH f1 + faceH f1 s⟩

/-- `safe = (fx0 + SAFE_INSET, fy0 + SAFE_INSET, fx1 - SAFE_INSET,
fy1 - SAFE_INSET)` (source lines 221-222). -/
def insetRect (r : Rect) (i : ℤ) : Rect :=
  ⟨r.x0 + i, r.y0 + i, r.x1 - i, r.y1 - i⟩

/-- The two metadata records appended for one grid row (lines 243-255):
the left record carries no `butted_to_side_right_edge` key, the right
record always carries it. -/
def rowRecords (cfg : Config) (s : ℚ) (y cellH : ℤ) (f0 f1 : Face) :
    List FaceRecord :=
  [⟨f0.name, f0.width_m, f0.height_m,
    rect_to_uv (leftRect cfg s y cellH f0) cfg.canvas_w cfg.canvas_h,
    rect_to_uv (insetRect (leftRect cfg s y cellH f0) (SAFE_INSET cfg s))
      cfg.canvas_w cfg.canvas_h,
    none⟩,
   ⟨f1.name, f1.width_m, f1.height_m,
    rect_to_uv (rightRect cfg s y cellH f0 f1) cfg.canvas_w cfg.canvas_h,
    rect_to_uv (insetRect (rightRect cfg s y cellH f0 f1) (SAFE_INSET cfg s))
      cfg.canvas_w cfg.canvas_h,
    some (buttCond f0 f1)⟩]

/-- `y` at row 0 is `grid_y0` (source line 189). -/
def yRow0 (cfg : Config) (s : ℚ) : ℤ := gridY0 cfg s

/-- `y` after one iteration of `y += cell_h + ROW_GAP_PX` (line 257). -/
def yRow1 (cfg : Config) (s : ℚ) : ℤ :=
  yRow0 cfg s + row0Px cfg s + cfg.row_gap_px

def yRow2 (cfg : Config) (s : ℚ) : ℤ :=
  yRow1 cfg s + row1Px cfg s + cfg.row_gap_px

/-- `metadata["faces"]`: the six records appended by the row loop
(source lines 189-257), in traversal order. -/
def metadataFaces (cfg : Config) (s : ℚ) : List FaceRecord :=
  rowRecords cfg s (yRow0 cfg s) (row0Px cfg s) (sideA cfg) (endA cfg) ++
  rowRecords cfg s (yRow1 cfg s) (row1Px cfg s) (top cfg) (bottom cfg) ++
  rowRecords cfg s (yRow2 cfg s) (row2Px cfg s) (sideB cfg) (endB cfg)

/-- The body of the `while dist < length` loop of `dashed_line` (source
lines 88-96), recursing on a fuel bound: at distance `dist` along the
edge it emits the on-segment `[dist, dist + min(dash_len, length -
dist)]` (in arc-length parameters; the drawn endpoints are `p1 + u *
dist` and `p1 + u * (dist + seg)` for the unit direction `u`) and then
advances `dist` by `dash_len + gap_len`. -/
def dashGo (length dash_len gap_len : ℚ) : ℕ → ℚ → List (ℚ × ℚ)
  | 0, _ => []
  | n + 1, dist =>
    if dist < length then
      (dist, dist + min dash_len (length - dist)) ::
        dashGo length dash_len gap_len n (dist + (dash_len + gap_len))
    else []

/-- The on-segments drawn by `dashed_line` (source lines 81-96) along an
edge of length `length`, as arc-length parameter intervals.  The edge
case `length <= 0` returns nothing (line 85-86).  The fuel bound covers
every iteration of the Python loop whenever `dash_len + gap_len > 0`
(otherwise that loop would not terminate, which no caller triggers since
both are at least one pixel). -/
def dashed_line_segs (length dash_len gap_len : ℚ) : List (ℚ × ℚ) :=
  if length ≤ 0 then []
  else if 0 < dash_len + gap_len then
    dashGo length dash_len gap_len ((⌈length / (dash_len + gap_len)⌉).toNat + 1) 0
  else []

/-- Modelled from the spec's wording, for comparison with the code's
accumulated maxima: `col_extent_m[c]` is the maximum `width_m` over the
rows of column `c` (no 0 seed). -/
def specCol0M (cfg : Config) : ℚ :=
  max (sideA cfg).width_m (max (top cfg).width_m (sideB cfg).width_m)

def specCol1M (cfg : Config) : ℚ :=
  max (endA cfg).width_m (max (bottom cfg).width_m (endB cfg).width_m)

def specRow0M (cfg : Config) : ℚ :=
  max (sideA cfg).height_m (endA cfg).height_m

def specRow1M (cfg : Config) : ℚ :=
  max (top cfg).height_m (bottom cfg).height_m

def specRow2M (cfg : Config) : ℚ :=
  max (sideB cfg).height_m (endB cfg).height_m

/-- Modelled from the spec's wording: `scale = min(avail_w /
sum(col_extent_m), avail_h / sum(row_extent_m))`. -/
def specScale (cfg : Config) : ℚ :=
  min ((availW cfg : ℚ) / (specCol0M cfg + specCol1M cfg))
      ((availH cfg : ℚ) / (specRow0M cfg + specRow1M cfg + specRow2M cfg))

/-- A small well-behaved configuration used to witness the theorems:
L=2, W=1, H=1 meters, canvas 100x100, margin 10, gaps 10, all guide
parameters 100 mm.  Its scale is `min(70/4, 60/3) = 35/2`. -/
def wCfg : Config := ⟨2, 1, 1, 100, 100, 10, 10, 10, 100, 100, 100, 100, 100, 100⟩

/-- `wCfg` with a 10000 mm safe inset, large enough to invert every
safe rectangle. -/
def wCfgBig : Config := ⟨2, 1, 1, 100, 100, 10, 10, 10, 10000, 100, 100, 100, 100, 100⟩

/-- A configuration with positive dimensions and positive available
space but zero margin: L=W=H=1 m on a 3x1000 canvas with no margins or
gaps.  Its scale is `min(3/2, 1000/3) = 3/2`, both column cells round
up to 2 px, and the 4 px grid overflows the 3 px canvas. -/
def cexCfg : Config := ⟨1, 1, 1, 3, 1000, 0, 0, 0, 100, 100, 100, 100, 100, 100⟩

/-- A degenerate configuration: 100x100 canvas with margin 60, so the
available space is -20 px in both directions while the extent sums are
positive.  Its scale is `min(-10, -20/3) = -10`. -/
def c3cex : Config := ⟨1, 1, 1, 100, 100, 60, 0, 0, 100, 100, 100, 100, 100, 100⟩

/-- A configuration where `2 * SAFE_INSET` exactly equals the smaller
side of the SIDE A cut rect: scale 1, SIDE A cut rect (0,0,2,4),
safe inset 1 px. -/
def cex10 : Config := ⟨2, 2, 4, 4, 10, 0, 0, 0, 1000, 100, 100, 100, 100, 100⟩

/-- The scale the script computes for `defaultConfig`:
`min((2048-120-40)/24.4, (2048-120-80)/9.248) = 1888/24.4 = 4720/61`. -/
def defaultScale : ℚ := 4720/61

/-- A rect is well-formed and lies within the canvas bounds
`[0, canvas_w] x [0, canvas_h]`. -/
def rectInCanvas (cfg : Config) (r : Rect) : Prop :=
  0 ≤ r.x0 ∧ r.x0 ≤ r.x1 ∧ r.x1 ≤ cfg.canvas_w ∧
  0 ≤ r.y0 ∧ r.y0 ≤ r.y1 ∧ r.y1 ≤ cfg.canvas_h

instance (cfg : Config) (r : Rect) : Decidable (rectInCanvas cfg r) := by
  unfold rectInCanvas
  infer_instance

/-! ## Helper lemmas -/

theorem pyround_le (q : ℚ) : (pyround q : ℚ) ≤ q + 1/2 := by
  have h0 : (⌊q⌋ : ℚ) ≤ q := Int.floor_le q
  have h1 : q < ⌊q⌋ + 1 := Int.lt_floor_add_one q
  unfold pyround
  split_ifs <;> push_cast <;> linarith

theorem le_pyround (q : ℚ) : q - 1/2 ≤ (pyround q : ℚ) := by
  have h0 : (⌊q⌋ : ℚ) ≤ q := Int.floor_le q
  have h1 : q < ⌊q⌋ + 1 := Int.lt_floor_add_one q
  unfold pyround
  split_ifs <;> push_cast <;> linarith

theorem pyround_nonneg {q : ℚ} (h : 0 ≤ q) : 0 ≤ pyround q := by
  have h0 : 0 ≤ ⌊q⌋ := Int.floor_nonneg.mpr h
  unfold pyround
  split_ifs <;> omega

theorem floor_le_pyround (q : ℚ) : ⌊q⌋ ≤ pyround q := by
  unfold pyround
  split_ifs <;> omega

theorem pyround_le_floor_add_one (q : ℚ) : pyround q ≤ ⌊q⌋ + 1 := by
  unfold pyround
  split_ifs <;> omega

theorem pyround_mono {q p : ℚ} (h : q ≤ p) : pyround q ≤ pyround p := by
  have hf : ⌊q⌋ ≤ ⌊p⌋ := Int.floor_mono h
  rcases lt_or_eq_of_le hf with hlt | heq
  · have h1 := pyround_le_floor_add_one q
    have h2 := floor_le_pyround p
    omega
  · have h0q : (⌊q⌋ : ℚ) ≤ q := Int.floor_le q
    have h0p : (⌊p⌋ : ℚ) ≤ p := Int.floor_le p
    unfold pyround
    rw [← heq]
    have hd : q - ⌊q⌋ ≤ p - ⌊q⌋ := by linarith
    split_ifs <;> simp only [not_lt] at * <;> first | omega | linarith

theorem one_le_mm_to_px (s mm : ℚ) : 1 ≤ mm_to_px s mm :=
  le_max_left 1 _

/-- Floor-division bounds for the divisor 2, in the form linear
arithmetic can consume. -/
theorem fdiv_two_bounds (a : ℤ) :
    2 * Int.fdiv a 2 ≤ a ∧ a ≤ 2 * Int.fdiv a 2 + 1 := by
  rw [Int.fdiv_eq_ediv _ (by norm_num)]
  omega

/-- Every emitted record's `cut_rect` is `rect_to_uv` of some pixel
rect and its `safe_rect` is `rect_to_uv` of that same rect inset by
`SAFE_INSET`, exactly as appended at source lines 243-255. -/
theorem mem_metadata_structure (cfg : Config) (s : ℚ) (rec : FaceRecord)
    (hrec : rec ∈ metadataFaces cfg s) :
    ∃ R : Rect, rec.cut_rect = rect_to_uv R cfg.canvas_w cfg.canvas_h ∧
      rec.safe_rect = rect_to_uv (insetRect R (SAFE_INSET cfg s))
        cfg.canvas_w cfg.canvas_h := by
  simp only [metadataFaces, rowRecords, List.mem_append, List.mem_cons,
    List.not_mem_nil, or_false] at hrec
  rcases hrec with ((rfl | rfl) | (rfl | rfl)) | (rfl | rfl) <;> exact ⟨_, rfl, rfl⟩

/-- Every emitted record's `meters` pair is the face's `(width_m,
height_m)` and its cut rect has pixel width `faceW` and height `faceH`
of that same face. -/
theorem mem_metadata_meters (cfg : Config) (s : ℚ) (rec : FaceRecord)
    (hrec : rec ∈ metadataFaces cfg s) :
    ∃ f : Face, rec.meters_w = f.width_m ∧ rec.meters_h = f.height_m ∧
      rec.cut_rect.px.x1 - rec.cut_rect.px.x0 = faceW f s ∧
      rec.cut_rect.px.y1 - rec.cut_rect.px.y0 = faceH f s := by
  simp only [metadataFaces, rowRecords, List.mem_append, List.mem_cons,
    List.not_mem_nil, or_false] at hrec
  rcases hrec with ((rfl | rfl) | (rfl | rfl)) | (rfl | rfl) <;>
    exact ⟨_, rfl, rfl, by simp [rect_to_uv, leftRect, rightRect], by
      simp [rect_to_uv, leftRect, rightRect]⟩

/-! ## C6: safe rect strictly contained in the cut rect -/

/-- C6: for every emitted panel record whose cut rect satisfies
`2*SAFE_INSET < min(panel_w_px, panel_h_px)`, the safe rect (the cut
rect inset by `SAFE_INSET` on each of the four sides) is strictly
contained in the cut rect and is itself nondegenerate. -/
theorem safe_rect_strictly_inside (cfg : Config) (s : ℚ) (rec : FaceRecord)
    (hrec : rec ∈ metadataFaces cfg s)
    (h : 2 * SAFE_INSET cfg s <
      min (rec.cut_rect.px.x1 - rec.cut_rect.px.x0)
          (rec.cut_rect.px.y1 - rec.cut_rect.px.y0)) :
    rec.cut_rect.px.x0 < rec.safe_rect.px.x0 ∧
    rec.safe_rect.px.x0 < rec.safe_rect.px.x1 ∧
    rec.safe_rect.px.x1 < rec.cut_rect.px.x1 ∧
    rec.cut_rect.px.y0 < rec.safe_rect.px.y0 ∧
    rec.safe_rect.px.y0 < rec.safe_rect.px.y1 ∧
    rec.safe_rect.px.y1 < rec.cut_rect.px.y1 := by
  obtain ⟨R, hcut, hsafe⟩ := mem_metadata_structure cfg s rec hrec
  have hI : 1 ≤ SAFE_INSET cfg s := one_le_mm_to_px s cfg.safe_inset_mm
  rw [hcut] at h ⊢
  rw [hsafe]
  simp only [rect_to_uv, insetRect] at h ⊢
  rcases lt_min_iff.mp h with ⟨h1, h2⟩
  omega

/-- Witness for C6 at `wCfg` with its computed scale 35/2: the first
record is the SIDE A panel with cut rect (10,13,45,31), safe inset 2. -/
theorem safe_rect_strictly_inside_witness :
    ((metadataFaces wCfg (35/2)).headI ∈ metadataFaces wCfg (35/2) ∧
     2 * SAFE_INSET wCfg (35/2) <
       min ((metadataFaces wCfg (35/2)).headI.cut_rect.px.x1 -
            (metadataFaces wCfg (35/2)).headI.cut_rect.px.x0)
           ((metadataFaces wCfg (35/2)).headI.cut_rect.px.y1 -
            (metadataFaces wCfg (35/2)).headI.cut_rect.px.y0)) ∧
    ((metadataFaces wCfg (35/2)).headI.cut_rect.px.x0 <
      (metadataFaces wCfg (35/2)).headI.safe_rect.px.x0 ∧
     (metadataFaces wCfg (35/2)).headI.safe_rect.px.x0 <
      (metadataFaces wCfg (35/2)).headI.safe_rect.px.x1 ∧
     (metadataFaces wCfg (35/2)).headI.safe_rect.px.x1 <
      (metadataFaces wCfg (35/2)).headI.cut_rect.px.x1 ∧
     (metadataFaces wCfg (35/2)).headI.cut_rect.px.y0 <
      (metadataFaces wCfg (35/2)).headI.safe_rect.px.y0 ∧
     (metadataFaces wCfg (35/2)).headI.safe_rect.px.y0 <
      (metadataFaces wCfg (35/2)).headI.safe_rect.px.y1 ∧
     (metadataFaces wCfg (35/2)).headI.safe_rect.px.y1 <
      (metadataFaces wCfg (35/2)).headI.cut_rect.px.y1) :=
  ⟨⟨by with_unfolding_all decide, by with_unfolding_all decide⟩,
   safe_rect_strictly_inside wCfg (35/2) _ (by with_unfolding_all decide)
     (by with_unfolding_all decide)⟩

/-! ## C7: UV and pixel rects are consistent -/

/-- C7: for every emitted record, the normalized UV rect is the pixel
rect divided component-wise by the canvas dimensions, so multiplying
back by the canvas dimensions recovers the pixel coordinates exactly
(the embedding models float arithmetic exactly over ℚ); this holds for
the cut rect and the safe rect alike. -/
theorem uv_px_consistent (cfg : Config) (s : ℚ) (rec : FaceRecord)
    (hrec : rec ∈ metadataFaces cfg s)
    (hw : (cfg.canvas_w : ℚ) ≠ 0) (hh : (cfg.canvas_h : ℚ) ≠ 0) :
    rec.cut_rect.uv.u0 * cfg.canvas_w = rec.cut_rect.px.x0 ∧
    rec.cut_rect.uv.u1 * cfg.canvas_w = rec.cut_rect.px.x1 ∧
    rec.cut_rect.uv.v0 * cfg.canvas_h = rec.cut_rect.px.y0 ∧
    rec.cut_rect.uv.v1 * cfg.canvas_h = rec.cut_rect.px.y1 ∧
    rec.safe_rect.uv.u0 * cfg.canvas_w = rec.safe_rect.px.x0 ∧
    rec.safe_rect.uv.u1 * cfg.canvas_w = rec.safe_rect.px.x1 ∧
    rec.safe_rect.uv.v0 * cfg.canvas_h = rec.safe_rect.px.y0 ∧
    rec.safe_rect.uv.v1 * cfg.canvas_h = rec.safe_rect.px.y1 := by
  obtain ⟨R, hcut, hsafe⟩ := mem_metadata_structure cfg s rec hrec
  rw [hcut, hsafe]
  simp only [rect_to_uv]
  exact ⟨div_mul_cancel₀ _ hw, div_mul_cancel₀ _ hw,
    div_mul_cancel₀ _ hh, div_mul_cancel₀ _ hh,
    div_mul_cancel₀ _ hw, div_mul_cancel₀ _ hw,
    div_mul_cancel₀ _ hh, div_mul_cancel₀ _ hh⟩

/-- Witness for C7 at `wCfg`, scale 35/2, on the first record. -/
theorem uv_px_consistent_witness :
    ((metadataFaces wCfg (35/2)).headI ∈ metadataFaces wCfg (35/2) ∧
     ((100:ℚ) ≠ 0)) ∧
    ((metadataFaces wCfg (35/2)).headI.cut_rect.uv.u0 * wCfg.canvas_w =
       (metadataFaces wCfg (35/2)).headI.cut_rect.px.x0 ∧
     (metadataFaces wCfg (35/2)).headI.cut_rect.uv.u1 * wCfg.canvas_w =
       (metadataFaces wCfg (35/2)).headI.cut_rect.px.x1 ∧
     (metadataFaces wCfg (35/2)).headI.cut_rect.uv.v0 * wCfg.canvas_h =
       (metadataFaces wCfg (35/2)).headI.cut_rect.px.y0 ∧
     (metadataFaces wCfg (35/2)).headI.cut_rect.uv.v1 * wCfg.canvas_h =
       (metadataFaces wCfg (35/2)).headI.cut_rect.px.y1 ∧
     (metadataFaces wCfg (35/2)).headI.safe_rect.uv.u0 * wCfg.canvas_w =
       (metadataFaces wCfg (35/2)).headI.safe_rect.px.x0 ∧
     (metadataFaces wCfg (35/2)).headI.safe_rect.uv.u1 * wCfg.canvas_w =
       (metadataFaces wCfg (35/2)).headI.safe_rect.px.x1 ∧
     (metadataFaces wCfg (35/2)).headI.safe_rect.uv.v0 * wCfg.canvas_h =
       (metadataFaces wCfg (35/2)).headI.safe_rect.px.y0 ∧
     (metadataFaces wCfg (35/2)).headI.safe_rect.uv.v1 * wCfg.canvas_h =
       (metadataFaces wCfg (35/2)).headI.safe_rect.px.y1) :=
  ⟨⟨by with_unfolding_all decide, by norm_num⟩,
   uv_px_consistent wCfg (35/2) _ (by with_unfolding_all decide)
     (by with_unfolding_all decide) (by with_unfolding_all decide)⟩

/-! ## C10: oversized safe insets are emitted unchanged -/

/-- C10 (amended): the program applies no clamp and raises no error on
the safe rect: every record's `safe_rect` is exactly the cut rect inset
by `SAFE_INSET` on all four sides, in pixel and UV coordinates alike;
and whenever `2*SAFE_INSET` strictly exceeds the smaller cut-rect side,
the emitted safe rect is inverted (`x1 < x0` or `y1 < y0`).  (At exact
equality the safe rect degenerates to zero extent on the smaller side
without being inverted; see the counterexample.) -/
theorem inverted_safe_rect_emitted (cfg : Config) (s : ℚ) (rec : FaceRecord)
    (hrec : rec ∈ metadataFaces cfg s)
    (h : min (rec.cut_rect.px.x1 - rec.cut_rect.px.x0)
             (rec.cut_rect.px.y1 - rec.cut_rect.px.y0) <
         2 * SAFE_INSET cfg s) :
    rec.safe_rect = rect_to_uv (insetRect rec.cut_rect.px (SAFE_INSET cfg s))
      cfg.canvas_w cfg.canvas_h ∧
    (rec.safe_rect.px.x1 < rec.safe_rect.px.x0 ∨
     rec.safe_rect.px.y1 < rec.safe_rect.px.y0) := by
  obtain ⟨R, hcut, hsafe⟩ := mem_metadata_structure cfg s rec hrec
  constructor
  · rw [hcut, hsafe]
    rfl
  · rw [hcut] at h
    rw [hsafe]
    simp only [rect_to_uv, insetRect] at h ⊢
    rcases min_lt_iff.mp h with h1 | h1
    · left; omega
    · right; omega

/-- Witness for C10 at `wCfgBig` (10000 mm safe inset, 175 px at scale
35/2): the first record's safe rect is inverted and emitted unchanged. -/
theorem inverted_safe_rect_emitted_witness :
    ((metadataFaces wCfgBig (35/2)).headI ∈ metadataFaces wCfgBig (35/2) ∧
     min ((metadataFaces wCfgBig (35/2)).headI.cut_rect.px.x1 -
          (metadataFaces wCfgBig (35/2)).headI.cut_rect.px.x0)
         ((metadataFaces wCfgBig (35/2)).headI.cut_rect.px.y1 -
          (metadataFaces wCfgBig (35/2)).headI.cut_rect.px.y0) <
       2 * SAFE_INSET wCfgBig (35/2)) ∧
    ((metadataFaces wCfgBig (35/2)).headI.safe_rect =
       rect_to_uv (insetRect (metadataFaces wCfgBig (35/2)).headI.cut_rect.px
         (SAFE_INSET wCfgBig (35/2))) wCfgBig.canvas_w wCfgBig.canvas_h ∧
     ((metadataFaces wCfgBig (35/2)).headI.safe_rect.px.x1 <
        (metadataFaces wCfgBig (35/2)).headI.safe_rect.px.x0 ∨
      (metadataFaces wCfgBig (35/2)).headI.safe_rect.px.y1 <
        (metadataFaces wCfgBig (35/2)).headI.safe_rect.px.y0)) :=
  ⟨⟨by with_unfolding_all decide, by with_unfolding_all decide⟩,
   inverted_safe_rect_emitted wCfgBig (35/2) _ (by with_unfolding_all decide)
     (by with_unfolding_all decide)⟩

/-- Counterexample to C10 as stated: at `cex10` (scale 1) the first
record's cut rect is (0,0,2,4) and `2*SAFE_INSET = 2` equals the
smaller side, so the claim's condition `2*safe_inset_px >= min(w,h)`
holds, yet the emitted safe rect (1,1,1,3) is degenerate, not inverted:
neither `x0 > x1` nor `y0 > y1`. -/
theorem safe_rect_equality_not_inverted :
    computeScale cex10 = some 1 ∧
    SAFE_INSET cex10 1 = 1 ∧
    (metadataFaces cex10 1).headI.cut_rect.px = ⟨0, 0, 2, 4⟩ ∧
    min ((metadataFaces cex10 1).headI.cut_rect.px.x1 -
         (metadataFaces cex10 1).headI.cut_rect.px.x0)
        ((metadataFaces cex10 1).headI.cut_rect.px.y1 -
         (metadataFaces cex10 1).headI.cut_rect.px.y0) ≤
      2 * SAFE_INSET cex10 1 ∧
    (metadataFaces cex10 1).headI.safe_rect.px = ⟨1, 1, 1, 3⟩ ∧
    ¬((metadataFaces cex10 1).headI.safe_rect.px.x0 >
        (metadataFaces cex10 1).headI.safe_rect.px.x1 ∨
      (metadataFaces cex10 1).headI.safe_rect.px.y0 >
        (metadataFaces cex10 1).headI.safe_rect.px.y1) :=
  ⟨by with_unfolding_all rfl, by with_unfolding_all rfl,
   by with_unfolding_all rfl, by with_unfolding_all decide,
   by with_unfolding_all rfl, by with_unfolding_all decide⟩

/-! ## C2: the END-butts-to-SIDE rule -/

/-- C2: whenever the right face's name starts with "END" and the left
face's name starts with "SIDE", the right face's left edge equals the
left face's right edge exactly (zero gap), overriding the default
centering; its vertical coordinates are exactly those of the centered
placement `rightRectCentered` (the rule changes only the horizontal
offset), and its width is unchanged. -/
theorem butting_rule (cfg : Config) (s : ℚ) (y cellH : ℤ) (f0 f1 : Face)
    (h1 : f1.name.startsWith "END" = true)
    (h0 : f0.name.startsWith "SIDE" = true) :
    (rightRect cfg s y cellH f0 f1).x0 = (leftRect cfg s y cellH f0).x1 ∧
    (rightRect cfg s y cellH f0 f1).y0 =
      (rightRectCentered cfg s y cellH f1).y0 ∧
    (rightRect cfg s y cellH f0 f1).y1 =
      (rightRectCentered cfg s y cellH f1).y1 ∧
    (rightRect cfg s y cellH f0 f1).x1 - (rightRect cfg s y cellH f0 f1).x0 =
      (rightRectCentered cfg s y cellH f1).x1 -
        (rightRectCentered cfg s y cellH f1).x0 := by
  simp [rightRect, rightRectCentered, leftRect, fx01, buttCond, h0, h1]

/-- Witness for C2: row 0 of `wCfg` at scale 35/2 (y = 13, cell height
18), faces SIDE A and END A. -/
theorem butting_rule_witness :
    ((sideA wCfg).name.startsWith "SIDE" = true ∧
     (endA wCfg).name.startsWith "END" = true) ∧
    ((rightRect wCfg (35/2) 13 18 (sideA wCfg) (endA wCfg)).x0 =
       (leftRect wCfg (35/2) 13 18 (sideA wCfg)).x1 ∧
     (rightRect wCfg (35/2) 13 18 (sideA wCfg) (endA wCfg)).y0 =
       (rightRectCentered wCfg (35/2) 13 18 (endA wCfg)).y0 ∧
     (rightRect wCfg (35/2) 13 18 (sideA wCfg) (endA wCfg)).y1 =
       (rightRectCentered wCfg (35/2) 13 18 (endA wCfg)).y1 ∧
     (rightRect wCfg (35/2) 13 18 (sideA wCfg) (endA wCfg)).x1 -
       (rightRect wCfg (35/2) 13 18 (sideA wCfg) (endA wCfg)).x0 =
       (rightRectCentered wCfg (35/2) 13 18 (endA wCfg)).x1 -
       (rightRectCentered wCfg (35/2) 13 18 (endA wCfg)).x0) :=
  ⟨⟨by with_unfolding_all rfl, by with_unfolding_all rfl⟩,
   butting_rule wCfg (35/2) 13 18 (sideA wCfg) (endA wCfg)
     (by with_unfolding_all rfl) (by with_unfolding_all rfl)⟩

/-! ## C4: record shape -/

/-- C4 (amended): the metadata's `faces` array always has exactly six
records, named in the grid's traversal order; every record carries
name, meters and the two px+uv rects, but only the right-column records
(indices 1, 3, 5) carry the `butted_to_side_right_edge` key -- `some
true` for the two (SIDE, END) rows and `some false` for the (TOP,
BOTTOM) row -- while the left-column records (indices 0, 2, 4) omit it. -/
theorem face_record_fields (cfg : Config) (s : ℚ) :
    (metadataFaces cfg s).length = 6 ∧
    (metadataFaces cfg s).map FaceRecord.name =
      ["SIDE A", "END A", "TOP", "BOTTOM", "SIDE B", "END B"] ∧
    (metadataFaces cfg s).map FaceRecord.butted_to_side_right_edge =
      [none, some true, none, some false, none, some true] := by
  have h1 : "END A".startsWith "END" = true := by with_unfolding_all rfl
  have h2 : "SIDE A".startsWith "SIDE" = true := by with_unfolding_all rfl
  have h3 : "BOTTOM".startsWith "END" = false := by with_unfolding_all rfl
  have h4 : "END B".startsWith "END" = true := by with_unfolding_all rfl
  have h5 : "SIDE B".startsWith "SIDE" = true := by with_unfolding_all rfl
  refine ⟨?_, ?_, ?_⟩ <;>
    simp [metadataFaces, rowRecords, buttCond, sideA, endA, top, bottom,
      sideB, endB, h1, h2, h3, h4, h5]

/-- Counterexample to C4 as stated: in the actual run (default
configuration, computed scale 4720/61) the first emitted record (the
left-column SIDE A panel) does not carry the
`butted_to_side_right_edge` key. -/
theorem record_without_butted_field :
    computeScale defaultConfig = some defaultScale ∧
    (metadataFaces defaultConfig defaultScale).headI.name = "SIDE A" ∧
    (metadataFaces defaultConfig defaultScale).headI.butted_to_side_right_edge
      = none :=
  ⟨by with_unfolding_all rfl, by with_unfolding_all rfl,
   by with_unfolding_all rfl⟩

/-! ## C3: behavior on degenerate configurations -/

/-- C3 (amended): the script performs no validation and defines no
`LayoutError`.  The scale computation aborts (with Python's
`ZeroDivisionError`, modelled as `none`) exactly when an extent sum is
zero -- and extent sums are never negative, being maxima seeded with 0;
when the available space is zero or negative but the extent sums are
positive, no error is signalled: the computation yields a non-positive
scale and the program proceeds to layout and drawing. -/
theorem layout_error_behavior (cfg : Config) :
    (computeScale cfg = none ↔ sumColsM cfg = 0 ∨ sumRowsM cfg = 0) ∧
    0 ≤ sumColsM cfg ∧ 0 ≤ sumRowsM cfg ∧
    ((availW cfg ≤ 0 ∨ availH cfg ≤ 0) → 0 < sumColsM cfg →
      0 < sumRowsM cfg → (computeScale cfg).getD 1 ≤ 0) := by
  have hc0 : (0:ℚ) ≤ col0M cfg := by simp [col0M, le_max_iff]
  have hc1 : (0:ℚ) ≤ col1M cfg := by simp [col1M, le_max_iff]
  have hr0 : (0:ℚ) ≤ row0M cfg := by simp [row0M, le_max_iff]
  have hr1 : (0:ℚ) ≤ row1M cfg := by simp [row1M, le_max_iff]
  have hr2 : (0:ℚ) ≤ row2M cfg := by simp [row2M, le_max_iff]
  refine ⟨?_, by simp [sumColsM]; linarith, by simp [sumRowsM]; linarith, ?_⟩
  · unfold computeScale
    split_ifs with h <;> simp [h]
  · intro havail hsc hsr
    have hne : ¬(sumColsM cfg = 0 ∨ sumRowsM cfg = 0) := by
      rintro (h | h) <;> simp [h] at hsc hsr
    unfold computeScale
    rw [if_neg hne, Option.getD_some]
    rcases havail with h | h
    · have ha : (availW cfg : ℚ) ≤ 0 := by exact_mod_cast h
      exact le_trans (min_le_left _ _)
        (div_nonpos_iff.mpr (Or.inr ⟨ha, le_of_lt hsc⟩))
    · have ha : (availH cfg : ℚ) ≤ 0 := by exact_mod_cast h
      exact le_trans (min_le_right _ _)
        (div_nonpos_iff.mpr (Or.inr ⟨ha, le_of_lt hsr⟩))

/-- Witness for C3 (amended) at `c3cex` (margin 60 on a 100x100 canvas,
available space -20): the scale is computed, not an error, and is
non-positive. -/
theorem layout_error_behavior_witness :
    (availW c3cex ≤ 0 ∨ availH c3cex ≤ 0) ∧ 0 < sumColsM c3cex ∧
    0 < sumRowsM c3cex ∧ (computeScale c3cex).getD 1 ≤ 0 :=
  ⟨Or.inl (by decide), by with_unfolding_all decide,
   by with_unfolding_all decide,
   (layout_error_behavior c3cex).2.2.2 (Or.inl (by decide))
     (by with_unfolding_all decide) (by with_unfolding_all decide)⟩

/-- Counterexample to C3 as stated: at `c3cex` the available space is
negative in both directions, yet the layout computation signals no
error at all -- it returns the scale -10 and the program goes on to
produce all six records (and would proceed to drawing). -/
theorem layout_error_not_signaled :
    availW c3cex < 0 ∧ availH c3cex < 0 ∧
    0 < sumColsM c3cex ∧ 0 < sumRowsM c3cex ∧
    computeScale c3cex = some (-10) ∧
    (metadataFaces c3cex (-10)).length = 6 :=
  ⟨by decide, by decide, by with_unfolding_all decide,
   by with_unfolding_all decide, by with_unfolding_all rfl,
   by with_unfolding_all rfl⟩

/-! ## C8: millimeter-to-pixel conversion -/

/-- C8: every millimeter guide parameter is converted by `mm_to_px`,
which computes `max(1, round(mm/1000 * scale))`, so each of the six
converted guide parameters is at least one pixel for every input. -/
theorem mm_guides_floor_one (cfg : Config) (s : ℚ) :
    (∀ mm : ℚ, mm_to_px s mm = max 1 (pyround (mm / 1000 * s)) ∧
      1 ≤ mm_to_px s mm) ∧
    SAFE_INSET cfg s = mm_to_px s cfg.safe_inset_mm ∧
    TICK_LEN cfg s = mm_to_px s cfg.tick_len_mm ∧
    TICK_W cfg s = mm_to_px s cfg.tick_thick_mm ∧
    CUT_W cfg s = mm_to_px s cfg.cut_thick_mm ∧
    DASH_LEN cfg s = mm_to_px s cfg.dash_len_mm ∧
    GAP_LEN cfg s = mm_to_px s cfg.gap_len_mm ∧
    1 ≤ SAFE_INSET cfg s ∧ 1 ≤ TICK_LEN cfg s ∧ 1 ≤ TICK_W cfg s ∧
    1 ≤ CUT_W cfg s ∧ 1 ≤ DASH_LEN cfg s ∧ 1 ≤ GAP_LEN cfg s :=
  ⟨fun mm => ⟨rfl, one_le_mm_to_px s mm⟩, rfl, rfl, rfl, rfl, rfl, rfl,
   one_le_mm_to_px s _, one_le_mm_to_px s _, one_le_mm_to_px s _,
   one_le_mm_to_px s _, one_le_mm_to_px s _, one_le_mm_to_px s _⟩

/-! ## C9: dashed segments stay within the edge -/

/-- Each on-segment emitted by the dash loop starting from a
nonnegative distance lies within `[0, length]`, for any fuel. -/
theorem dashGo_segs_bounded (length dash_len gap_len : ℚ)
    (hd : 0 < dash_len) (hg : 0 ≤ gap_len) :
    ∀ (n : ℕ) (d : ℚ), 0 ≤ d →
      ∀ seg ∈ dashGo length dash_len gap_len n d,
        0 ≤ seg.1 ∧ seg.1 < seg.2 ∧
        seg.2 = seg.1 + min dash_len (length - seg.1) ∧ seg.2 ≤ length := by
  intro n
  induction n with
  | zero => intro d _ seg hseg; simp [dashGo] at hseg
  | succ n ih =>
    intro d hd0 seg hseg
    rw [dashGo] at hseg
    by_cases hlt : d < length
    · rw [if_pos hlt] at hseg
      rcases List.mem_cons.mp hseg with h | h
      · subst h
        refine ⟨hd0, ?_, rfl, ?_⟩
        · have hmin : 0 < min dash_len (length - d) := lt_min hd (by linarith)
          simpa using hmin
        · have hmin : min dash_len (length - d) ≤ length - d :=
            min_le_right _ _
          simp only
          linarith
      · exact ih (d + (dash_len + gap_len)) (by linarith) seg h
    · rw [if_neg hlt] at hseg
      simp at hseg

/-- C9: every on-segment the dashed-line primitive emits along an edge
of length `length` lies within the edge: it starts at a nonnegative
arc-length parameter, its length is `min(dash_len, length - start)`
(so the final segment is clipped to the remaining edge), and its end
never exceeds `length` -- also when `length` is not a multiple of
`dash_len + gap_len`. -/
theorem dashed_segments_within_edge (length dash_len gap_len : ℚ)
    (seg : ℚ × ℚ) (hd : 0 < dash_len) (hg : 0 ≤ gap_len)
    (hseg : seg ∈ dashed_line_segs length dash_len gap_len) :
    0 ≤ seg.1 ∧ seg.1 < seg.2 ∧
    seg.2 = seg.1 + min dash_len (length - seg.1) ∧ seg.2 ≤ length := by
  unfold dashed_line_segs at hseg
  split_ifs at hseg with h1 h2
  · simp at hseg
  · exact dashGo_segs_bounded length dash_len gap_len hd hg _ 0 le_rfl seg hseg
  · simp at hseg

/-- Witness for C9: edge length 5, dash 2, gap 1 (5 is not a multiple
of the period 3); the emitted segments are [(0,2), (3,5)] and the final
one, (3,5), is clipped to the remaining length 2 and ends exactly at 5. -/
theorem dashed_segments_within_edge_witness :
    ((0:ℚ) < 2 ∧ (0:ℚ) ≤ 1 ∧
      ((3:ℚ), (5:ℚ)) ∈ dashed_line_segs 5 2 1) ∧
    (0 ≤ (3:ℚ) ∧ (3:ℚ) < 5 ∧ (5:ℚ) = 3 + min 2 (5 - 3) ∧ (5:ℚ) ≤ 5) :=
  ⟨⟨by norm_num, by norm_num, by with_unfolding_all decide⟩,
   dashed_segments_within_edge 5 2 1 (3, 5) (by norm_num) (by norm_num)
     (by with_unfolding_all decide)⟩

/-! ## C1: the layout scale -/

/-- `max(max(max(0,a),b),c) = max(a, max(b,c))` when `0 ≤ a`: the
code's 0-seeded accumulated maximum agrees with the spec's maximum
over the rows. -/
theorem max_seed_three {a b c : ℚ} (h : 0 ≤ a) :
    max (max (max 0 a) b) c = max a (max b c) := by
  rw [max_assoc, max_assoc]
  exact max_eq_right (le_trans h (le_max_left _ _))

theorem max_seed_two {a b : ℚ} (h : 0 ≤ a) :
    max (max 0 a) b = max a b := by
  rw [max_assoc]
  exact max_eq_right (le_trans h (le_max_left _ _))

/-- For positive panel dimensions, the code's accumulated extents equal
the spec's per-column / per-row maxima. -/
theorem extents_eq_spec (cfg : Config) (hL : 0 < cfg.L) (hW : 0 < cfg.W)
    (hH : 0 < cfg.H) :
    col0M cfg = specCol0M cfg ∧ col1M cfg = specCol1M cfg ∧
    row0M cfg = specRow0M cfg ∧ row1M cfg = specRow1M cfg ∧
    row2M cfg = specRow2M cfg := by
  unfold col0M col1M row0M row1M row2M specCol0M specCol1M specRow0M
    specRow1M specRow2M sideA endA top bottom sideB endB
  exact ⟨max_seed_three (le_of_lt hL), max_seed_three (le_of_lt hW),
    max_seed_two (le_of_lt hH), max_seed_two (le_of_lt hW),
    max_seed_two (le_of_lt hH)⟩

/-- C1: when the scale computation succeeds it returns exactly
`min(avail_w / sum(col_extent_m), avail_h / sum(row_extent_m))` with
the extents as the spec defines them (maximum width per column, maximum
height per row), and this single scale determines every panel's pixel
footprint: each emitted record's cut rect is `round(width_m * s)` by
`round(height_m * s)` pixels. -/
theorem scale_is_min_fit (cfg : Config) (s : ℚ) (hL : 0 < cfg.L)
    (hW : 0 < cfg.W) (hH : 0 < cfg.H)
    (hs : computeScale cfg = some s) :
    s = specScale cfg ∧
    ∀ rec ∈ metadataFaces cfg s,
      rec.cut_rect.px.x1 - rec.cut_rect.px.x0 = pyround (rec.meters_w * s) ∧
      rec.cut_rect.px.y1 - rec.cut_rect.px.y0 = pyround (rec.meters_h * s) := by
  obtain ⟨e0, e1, e2, e3, e4⟩ := extents_eq_spec cfg hL hW hH
  constructor
  · unfold computeScale at hs
    split_ifs at hs with h
    have heq := Option.some_injective _ hs
    subst heq
    simp only [specScale, sumColsM, sumRowsM, e0, e1, e2, e3, e4]
  · intro rec hrec
    obtain ⟨f, hmw, hmh, hcw, hch⟩ := mem_metadata_meters cfg s rec hrec
    rw [hmw, hmh, hcw, hch]
    exact ⟨rfl, rfl⟩

/-- Witness for C1 at `wCfg`: `specScale wCfg = min(70/4, 60/3) = 35/2`
and the first record (SIDE A, 2m x 1m) measures 35 x 18 pixels. -/
theorem scale_is_min_fit_witness :
    (0 < wCfg.L ∧ 0 < wCfg.W ∧ 0 < wCfg.H ∧
      computeScale wCfg = some (35/2)) ∧
    ((35/2 : ℚ) = specScale wCfg ∧
     ∀ rec ∈ metadataFaces wCfg (35/2),
       rec.cut_rect.px.x1 - rec.cut_rect.px.x0 =
         pyround (rec.meters_w * (35/2)) ∧
       rec.cut_rect.px.y1 - rec.cut_rect.px.y0 =
         pyround (rec.meters_h * (35/2))) :=
  ⟨⟨by with_unfolding_all decide, by with_unfolding_all decide,
    by with_unfolding_all decide, by with_unfolding_all rfl⟩,
   scale_is_min_fit wCfg (35/2) (by with_unfolding_all decide)
     (by with_unfolding_all decide) (by with_unfolding_all decide)
     (by with_unfolding_all rfl)⟩

/-! ## C5: cut rects stay within the canvas -/

/-- Both rects of a grid row lie within the canvas, given the grid
origin bounds, the vertical band of the row, and the per-face pixel
size bounds. -/
theorem row_rects_bounded (cfg : Config) (s : ℚ) (y cellH : ℤ) (f0 f1 : Face)
    (hgx : 0 ≤ gridX0 cfg s)
    (hgxe : gridX0 cfg s + gridWPx cfg s ≤ cfg.canvas_w)
    (hcg : 0 ≤ cfg.col_gap_px)
    (hy : 0 ≤ y) (hyE : y + cellH ≤ cfg.canvas_h)
    (hw0 : 0 ≤ faceW f0 s) (hw0le : faceW f0 s ≤ col0Px cfg s)
    (hw1 : 0 ≤ faceW f1 s) (hw1le : faceW f1 s ≤ col1Px cfg s)
    (hh0 : 0 ≤ faceH f0 s) (hh0le : faceH f0 s ≤ cellH)
    (hh1 : 0 ≤ faceH f1 s) (hh1le : faceH f1 s ≤ cellH) :
    rectInCanvas cfg (leftRect cfg s y cellH f0) ∧
    rectInCanvas cfg (rightRect cfg s y cellH f0 f1) := by
  obtain ⟨d1a, d1b⟩ := fdiv_two_bounds (col0Px cfg s - faceW f0 s)
  obtain ⟨d2a, d2b⟩ := fdiv_two_bounds (cellH - faceH f0 s)
  obtain ⟨d3a, d3b⟩ := fdiv_two_bounds (col1Px cfg s - faceW f1 s)
  obtain ⟨d4a, d4b⟩ := fdiv_two_bounds (cellH - faceH f1 s)
  have hgw : gridWPx cfg s = col0Px cfg s + col1Px cfg s + cfg.col_gap_px :=
    rfl
  simp only [rectInCanvas, leftRect, rightRect, fx00, fy00, fx01, fy01,
    xRight]
  by_cases hb : buttCond f0 f1 = true
  · rw [if_pos hb]
    omega
  · rw [if_neg hb]
    omega

/-- C5 (amended): with positive panel dimensions, positive available
space, nonnegative gaps and a margin of at least one pixel, every
emitted record's cut rect lies within the canvas bounds `[0, canvas_w]
x [0, canvas_h]`, including the rows repositioned by the butting rule.
(With a zero margin the banker-rounded cell sizes can overflow the
canvas by one pixel; see the counterexample.) -/
theorem cut_rects_within_canvas (cfg : Config) (s : ℚ) (rec : FaceRecord)
    (hL : 0 < cfg.L) (hW : 0 < cfg.W) (hH : 0 < cfg.H)
    (hm : 1 ≤ cfg.margin_px) (hcg : 0 ≤ cfg.col_gap_px)
    (hrg : 0 ≤ cfg.row_gap_px)
    (haw : 0 < availW cfg) (hah : 0 < availH cfg)
    (hs : computeScale cfg = some s)
    (hrec : rec ∈ metadataFaces cfg s) :
    rectInCanvas cfg rec.cut_rect.px := by
  -- bounds relating each face dimension to its column / row extent
  have hLc0 : cfg.L ≤ col0M cfg := le_max_right _ _
  have hWc1 : cfg.W ≤ col1M cfg := le_max_right _ _
  have hLc1 : cfg.L ≤ col1M cfg :=
    le_trans (le_max_right _ _) (le_max_left _ _)
  have hHr0 : cfg.H ≤ row0M cfg := le_max_right _ _
  have hWr1 : cfg.W ≤ row1M cfg := le_max_right _ _
  have hHr2 : cfg.H ≤ row2M cfg := le_max_right _ _
  have hsc : 0 < sumColsM cfg := by
    unfold sumColsM; linarith
  have hsr : 0 < sumRowsM cfg := by
    unfold sumRowsM; linarith
  -- extract the scale
  unfold computeScale at hs
  rw [if_neg (by rintro (h | h) <;> simp [h] at hsc hsr)] at hs
  have hsmin := (Option.some_injective _ hs).symm
  have hspos : 0 < s := by
    rw [hsmin]
    exact lt_min (div_pos (by exact_mod_cast haw) hsc)
      (div_pos (by exact_mod_cast hah) hsr)
  have hbw : col0M cfg * s + col1M cfg * s ≤ (availW cfg : ℚ) := by
    have h1 : s * sumColsM cfg ≤ (availW cfg : ℚ) :=
      (le_div_iff₀ hsc).mp (hsmin ▸ min_le_left _ _)
    rw [sumColsM] at h1; nlinarith
  have hbh : row0M cfg * s + row1M cfg * s + row2M cfg * s ≤
      (availH cfg : ℚ) := by
    have h1 : s * sumRowsM cfg ≤ (availH cfg : ℚ) :=
      (le_div_iff₀ hsr).mp (hsmin ▸ min_le_right _ _)
    rw [sumRowsM] at h1; nlinarith
  -- pixel cell budgets
  have hcp : col0Px cfg s + col1Px cfg s ≤ availW cfg + 1 := by
    have p0 := pyround_le (col0M cfg * s)
    have p1 := pyround_le (col1M cfg * s)
    have hsum : ((col0Px cfg s + col1Px cfg s : ℤ) : ℚ) ≤
        ((availW cfg + 1 : ℤ) : ℚ) := by
      push_cast
      unfold col0Px col1Px
      linarith
    exact_mod_cast hsum
  have hrp : row0Px cfg s + row1Px cfg s + row2Px cfg s ≤ availH cfg + 1 := by
    have p0 := pyround_le (row0M cfg * s)
    have p1 := pyround_le (row1M cfg * s)
    have p2 := pyround_le (row2M cfg * s)
    have hsum : ((row0Px cfg s + row1Px cfg s + row2Px cfg s : ℤ) : ℚ) <
        ((availH cfg + 2 : ℤ) : ℚ) := by
      push_cast
      unfold row0Px row1Px row2Px
      linarith
    have := Int.cast_lt.mp hsum
    omega
  -- grid origin bounds
  obtain ⟨ga, gb⟩ := fdiv_two_bounds (cfg.canvas_w - gridWPx cfg s)
  have hgwd : gridWPx cfg s = col0Px cfg s + col1Px cfg s + cfg.col_gap_px :=
    rfl
  have havailw : availW cfg =
      cfg.canvas_w - 2 * cfg.margin_px - (2 - 1) * cfg.col_gap_px := rfl
  have hgx : 0 ≤ gridX0 cfg s := by
    unfold gridX0; omega
  have hgxe : gridX0 cfg s + gridWPx cfg s ≤ cfg.canvas_w := by
    unfold gridX0; omega
  obtain ⟨ha, hb⟩ := fdiv_two_bounds (cfg.canvas_h - gridHPx cfg s)
  have hghd : gridHPx cfg s = row0Px cfg s + row1Px cfg s + row2Px cfg s +
      (3 - 1) * cfg.row_gap_px := rfl
  have havailh : availH cfg =
      cfg.canvas_h - 2 * cfg.margin_px - (3 - 1) * cfg.row_gap_px := rfl
  have hgy : 0 ≤ gridY0 cfg s := by
    unfold gridY0; omega
  have hgye : gridY0 cfg s + gridHPx cfg s ≤ cfg.canvas_h := by
    unfold gridY0; omega
  -- face pixel sizes are nonnegative and bounded by their cells
  have hsle := le_of_lt hspos
  have fw1 : 0 ≤ faceW (sideA cfg) s :=
    pyround_nonneg (mul_nonneg (le_of_lt hL) hsle)
  have fw1le : faceW (sideA cfg) s ≤ col0Px cfg s :=
    pyround_mono (mul_le_mul_of_nonneg_right hLc0 hsle)
  have fw2 : 0 ≤ faceW (endA cfg) s :=
    pyround_nonneg (mul_nonneg (le_of_lt hW) hsle)
  have fw2le : faceW (endA cfg) s ≤ col1Px cfg s :=
    pyround_mono (mul_le_mul_of_nonneg_right hWc1 hsle)
  have fw3 : 0 ≤ faceW (top cfg) s :=
    pyround_nonneg (mul_nonneg (le_of_lt hL) hsle)
  have fw3le : faceW (top cfg) s ≤ col0Px cfg s :=
    pyround_mono (mul_le_mul_of_nonneg_right hLc0 hsle)
  have fw4 : 0 ≤ faceW (bottom cfg) s :=
    pyround_nonneg (mul_nonneg (le_of_lt hL) hsle)
  have fw4le : faceW (bottom cfg) s ≤ col1Px cfg s :=
    pyround_mono (mul_le_mul_of_nonneg_right hLc1 hsle)
  have fw5 : 0 ≤ faceW (sideB cfg) s :=
    pyround_nonneg (mul_nonneg (le_of_lt hL) hsle)
  have fw5le : faceW (sideB cfg) s ≤ col0Px cfg s :=
    pyround_mono (mul_le_mul_of_nonneg_right hLc0 hsle)
  have fw6 : 0 ≤ faceW (endB cfg) s :=
    pyround_nonneg (mul_nonneg (le_of_lt hW) hsle)
  have fw6le : faceW (endB cfg) s ≤ col1Px cfg s :=
    pyround_mono (mul_le_mul_of_nonneg_right hWc1 hsle)
  have fh1 : 0 ≤ faceH (sideA cfg) s :=
    pyround_nonneg (mul_nonneg (le_of_lt hH) hsle)
  have fh1le : faceH (sideA cfg) s ≤ row0Px cfg s :=
    pyround_mono (mul_le_mul_of_nonneg_right hHr0 hsle)
  have fh2 : 0 ≤ faceH (endA cfg) s :=
    pyround_nonneg (mul_nonneg (le_of_lt hH) hsle)
  have fh2le : faceH (endA cfg) s ≤ row0Px cfg s :=
    pyround_mono (mul_le_mul_of_nonneg_right hHr0 hsle)
  have fh3 : 0 ≤ faceH (top cfg) s :=
    pyround_nonneg (mul_nonneg (le_of_lt hW) hsle)
  have fh3le : faceH (top cfg) s ≤ row1Px cfg s :=
    pyround_mono (mul_le_mul_of_nonneg_right hWr1 hsle)
  have fh4 : 0 ≤ faceH (bottom cfg) s :=
    pyround_nonneg (mul_nonneg (le_of_lt hW) hsle)
  have fh4le : faceH (bottom cfg) s ≤ row1Px cfg s :=
    pyround_mono (mul_le_mul_of_nonneg_right hWr1 hsle)
  have fh5 : 0 ≤ faceH (sideB cfg) s :=
    pyround_nonneg (mul_nonneg (le_of_lt hH) hsle)
  have fh5le : faceH (sideB cfg) s ≤ row2Px cfg s :=
    pyround_mono (mul_le_mul_of_nonneg_right hHr2 hsle)
  have fh6 : 0 ≤ faceH (endB cfg) s :=
    pyround_nonneg (mul_nonneg (le_of_lt hH) hsle)
  have fh6le : faceH (endB cfg) s ≤ row2Px cfg s :=
    pyround_mono (mul_le_mul_of_nonneg_right hHr2 hsle)
  -- row pixel heights are nonnegative
  have hr0nn : 0 ≤ row0Px cfg s :=
    pyround_nonneg (mul_nonneg (by linarith) hsle)
  have hr1nn : 0 ≤ row1Px cfg s :=
    pyround_nonneg (mul_nonneg (by linarith) hsle)
  have hr2nn : 0 ≤ row2Px cfg s :=
    pyround_nonneg (mul_nonneg (by linarith) hsle)
  -- vertical bands of the three rows
  have hyd0 : yRow0 cfg s = gridY0 cfg s := rfl
  have hyd1 : yRow1 cfg s = yRow0 cfg s + row0Px cfg s + cfg.row_gap_px := rfl
  have hyd2 : yRow2 cfg s = yRow1 cfg s + row1Px cfg s + cfg.row_gap_px := rfl
  have hy0 : 0 ≤ yRow0 cfg s := by omega
  have hy0e : yRow0 cfg s + row0Px cfg s ≤ cfg.canvas_h := by omega
  have hy1 : 0 ≤ yRow1 cfg s := by omega
  have hy1e : yRow1 cfg s + row1Px cfg s ≤ cfg.canvas_h := by omega
  have hy2 : 0 ≤ yRow2 cfg s := by omega
  have hy2e : yRow2 cfg s + row2Px cfg s ≤ cfg.canvas_h := by omega
  -- the three rows
  have hrow0 := row_rects_bounded cfg s (yRow0 cfg s) (row0Px cfg s)
    (sideA cfg) (endA cfg) hgx hgxe hcg hy0 hy0e
    fw1 fw1le fw2 fw2le fh1 fh1le fh2 fh2le
  have hrow1 := row_rects_bounded cfg s (yRow1 cfg s) (row1Px cfg s)
    (top cfg) (bottom cfg) hgx hgxe hcg hy1 hy1e
    fw3 fw3le fw4 fw4le fh3 fh3le fh4 fh4le
  have hrow2 := row_rects_bounded cfg s (yRow2 cfg s) (row2Px cfg s)
    (sideB cfg) (endB cfg) hgx hgxe hcg hy2 hy2e
    fw5 fw5le fw6 fw6le fh5 fh5le fh6 fh6le
  simp only [metadataFaces, rowRecords, List.mem_append, List.mem_cons,
    List.not_mem_nil, or_false] at hrec
  rcases hrec with ((rfl | rfl) | (rfl | rfl)) | (rfl | rfl)
  · exact hrow0.1
  · exact hrow0.2
  · exact hrow1.1
  · exact hrow1.2
  · exact hrow2.1
  · exact hrow2.2

/-- Witness for C5 (amended) at `wCfg` with scale 35/2: the first
record's cut rect (10,13,45,31) lies within the 100x100 canvas. -/
theorem cut_rects_within_canvas_witness :
    (0 < wCfg.L ∧ 0 < wCfg.W ∧ 0 < wCfg.H ∧ 1 ≤ wCfg.margin_px ∧
     0 ≤ wCfg.col_gap_px ∧ 0 ≤ wCfg.row_gap_px ∧
     0 < availW wCfg ∧ 0 < availH wCfg ∧
     computeScale wCfg = some (35/2) ∧
     (metadataFaces wCfg (35/2)).headI ∈ metadataFaces wCfg (35/2)) ∧
    rectInCanvas wCfg (metadataFaces wCfg (35/2)).headI.cut_rect.px :=
  ⟨⟨by with_unfolding_all decide, by with_unfolding_all decide,
    by with_unfolding_all decide, by decide, by decide, by decide,
    by decide, by decide, by with_unfolding_all rfl,
    by with_unfolding_all decide⟩,
   cut_rects_within_canvas wCfg (35/2) _ (by with_unfolding_all decide)
     (by with_unfolding_all decide) (by with_unfolding_all decide)
     (by decide) (by decide) (by decide) (by decide) (by decide)
     (by with_unfolding_all rfl) (by with_unfolding_all decide)⟩

/-- Counterexample to C5 as stated: `cexCfg` has positive panel
dimensions (1m each) and positive available space (3 px wide, 1000 px
tall), yet with its scale 3/2 both 1.5 px columns bank-round up to 2 px,
the 4 px grid overflows the 3 px canvas, and the first record's cut
rect starts at pixel x = -1, outside `[0, canvas_w]`.  (The margin is
zero, which the amended claim excludes.) -/
theorem cut_rect_escapes_canvas :
    0 < cexCfg.L ∧ 0 < cexCfg.W ∧ 0 < cexCfg.H ∧
    0 < availW cexCfg ∧ 0 < availH cexCfg ∧
    computeScale cexCfg = some (3/2) ∧
    (metadataFaces cexCfg (3/2)).headI.cut_rect.px.x0 = -1 ∧
    ¬rectInCanvas cexCfg (metadataFaces cexCfg (3/2)).headI.cut_rect.px :=
  ⟨by with_unfolding_all decide, by with_unfolding_all decide,
   by with_unfolding_all decide, by decide, by decide,
   by with_unfolding_all rfl, by with_unfolding_all rfl,
   by with_unfolding_all decide⟩

end UVLayout
